import Mathlib

/-!
Shallow embedding of the Zipf module of the load repository
(`src/zipf/zipf.rs`, `src/zipf/errors.rs`, `src/zipf/iterator.rs`).

`f64` values are modelled as real numbers; the transcendental operations
`ln`, `exp`, `powf` of the source become `Real.log`, `Real.exp`, `Real.rpow`,
and `f64::mul_add` becomes an explicit fused multiply-add on ℝ (exact, so it
coincides with multiply-then-add). Fallible construction becomes `Except`,
and the panics of the source (`assert_eq!` in `sample_batch`, out-of-window
indexing in `array_access`) become `Option.none` / a `none` branch.
A second, tiny model (`F64` below) keeps the IEEE comparison semantics of
`f64`, NaN included, for the claims that are about those comparisons.
-/

namespace LoadZipf

/-- From `zipf.rs`: the `s = 1` regime struct `ZipfOne`, caching `ln(b/a)`
and `ln(a)`. -/
structure ZipfOne where
  ln_b_div_a : ℝ
  ln_a : ℝ

/-- From `ZipfOne::new_unchecked(rng)`: `a = rng.start`, `b = rng.end`,
stores `ln(b/a)` and `ln(a)`. -/
noncomputable def ZipfOne.new_unchecked (a b : ℝ) : ZipfOne :=
  { ln_b_div_a := Real.log (b / a), ln_a := Real.log a }

/-- From `ZipfOne::sample`: `(self.ln_a + u * self.ln_b_div_a).exp()`. -/
noncomputable def ZipfOne.sample (z : ZipfOne) (u : ℝ) : ℝ :=
  Real.exp (z.ln_a + u * z.ln_b_div_a)

/-- From `zipf.rs`: the `s ≠ 1` regime struct `ZipfNonOne`, caching
`q_inv = 1/q`, `a_pow_q = a^q` and `b^q - a^q` with `q = 1 - s`. -/
structure ZipfNonOne where
  q_inv : ℝ
  a_pow_q : ℝ
  b_pow_q_sub_a_pow_q : ℝ

/-- Rust `f64::mul_add(self, a, b)`: fused multiply-add `self * a + b`.  In the
real-number model the fused operation is exact multiplication and addition. -/
def mulAdd (x a b : ℝ) : ℝ := x * a + b

/-- From `ZipfNonOne::new_unchecked(rng, s)`: computes `q = 1 - s`,
`q_inv = 1/q`, `a^q`, `b^q` and stores `q_inv`, `a^q`, `b^q - a^q`. -/
noncomputable def ZipfNonOne.new_unchecked (a b s : ℝ) : ZipfNonOne :=
  let q := 1.0 - s
  let q_inv := 1.0 / q
  let a_pow_q := a ^ q
  let b_pow_q := b ^ q
  { q_inv := q_inv
    a_pow_q := a_pow_q
    b_pow_q_sub_a_pow_q := b_pow_q - a_pow_q }

/-- From `ZipfNonOne::sample`:
`(u.mul_add(self.b_pow_q_sub_a_pow_q, self.a_pow_q)).powf(self.q_inv)`. -/
noncomputable def ZipfNonOne.sample (z : ZipfNonOne) (u : ℝ) : ℝ :=
  (mulAdd u z.b_pow_q_sub_a_pow_q z.a_pow_q) ^ z.q_inv

/-- From `zipf.rs`: the tagged union `ZipfImpl` with the two regimes. -/
inductive ZipfImpl where
  | One (z : ZipfOne)
  | NonOne (z : ZipfNonOne)

/-- From `ZipfImpl::new_unchecked`: exact floating-point equality test
`s == 1.0` selects the regime. -/
noncomputable def ZipfImpl.new_unchecked (a b s : ℝ) : ZipfImpl :=
  if s = 1.0 then ZipfImpl.One (ZipfOne.new_unchecked a b)
  else ZipfImpl.NonOne (ZipfNonOne.new_unchecked a b s)

/-- From `ZipfImpl::sample`: dispatch on the stored tag. -/
noncomputable def ZipfImpl.sample : ZipfImpl → ℝ → ℝ
  | ZipfImpl.One z, u => z.sample u
  | ZipfImpl.NonOne z, u => z.sample u

/-- From `errors.rs`: the `ZipfError` enum. -/
inductive ZipfError where
  | InvalidPowerParameter (s : ℝ)
  | InvalidRangeStart (start : ℝ)
  | InvalidRangeEnd (start end_ : ℝ)
  | EmptyArray

/-- From `zipf.rs`: the public `Zipf` struct: range start/end, power `s`,
and the selected regime implementation. -/
structure Zipf where
  start : ℝ
  end_ : ℝ
  s : ℝ
  implementation : ZipfImpl

/-- From `Zipf::new(rng, s)`: the three ordered validation checks, then the
regime constants are built by `ZipfImpl::new_unchecked`. -/
noncomputable def Zipf.new (start end_ s : ℝ) : Except ZipfError Zipf :=
  if s ≤ 0.0 then Except.error (ZipfError.InvalidPowerParameter s)
  else if start ≤ 0.0 then Except.error (ZipfError.InvalidRangeStart start)
  else if end_ ≤ start then Except.error (ZipfError.InvalidRangeEnd start end_)
  else Except.ok
    { start := start
      end_ := end_
      s := s
      implementation := ZipfImpl.new_unchecked start end_ s }

/-- From `Zipf::sample`: delegates to the stored implementation. -/
noncomputable def Zipf.sample (z : Zipf) (u : ℝ) : ℝ :=
  z.implementation.sample u

/-- From `Zipf::sample_batch`: asserts the two slices have equal length
(`none` models the panic of the failed `assert_eq!`), then writes
`sample(u_values[i])` into `output[i]` for every `i`, in input order. -/
noncomputable def Zipf.sample_batch (z : Zipf) (u_values output : List ℝ) :
    Option (List ℝ) :=
  if u_values.length = output.length then some (u_values.map z.sample)
  else none

/-- Modelled from the spec: `rand::rngs::StdRng` is an external collaborator
(the `rand` crate, not part of this repository).  The spec requires only
that it is an owned uniform source, producing `f64` values in `[0,1)`,
advancing deterministically from a given seed.  We model its state as a
seed plus a draw counter and its output as a fixed deterministic function
of that state. -/
structure StdRng where
  seed : ℕ
  index : ℕ
deriving DecidableEq, Repr

/-- Modelled from the spec: the concrete uniform output of the source at a
given seed and draw counter — some fixed deterministic value in `[0,1)`;
the library depends only on determinism, not on the mixing function. -/
noncomputable def uniformF64 (seed index : ℕ) : ℝ :=
  ((seed * 6364136223846793005 + index * 1442695040888963407 + 1) % 2 ^ 53 : ℕ)
    / (2 ^ 53 : ℝ)

/-- From `StdRng::seed_from_u64(k)`: the state determined by seed `k`. -/
def StdRng.seed_from_u64 (k : ℕ) : StdRng := { seed := k, index := 0 }

/-- From `rng.gen::<f64>()`: returns one uniform value and the advanced state. -/
noncomputable def StdRng.genF64 (r : StdRng) : ℝ × StdRng :=
  (uniformF64 r.seed r.index, { seed := r.seed, index := r.index + 1 })

/-- From `iterator.rs`: `const DEFAULT_SEED: u64 = 666`. -/
def DEFAULT_SEED : ℕ := 666

/-- From `iterator.rs`: `ZipfIterator` owns a copy of the handle and an
owned random source. -/
structure ZipfIterator where
  zipf : Zipf
  rng : StdRng

/-- From `ZipfIterator::new`: default seed 666. -/
def ZipfIterator.new (z : Zipf) : ZipfIterator :=
  { zipf := z, rng := StdRng.seed_from_u64 DEFAULT_SEED }

/-- From `ZipfIterator::with_rng`: replaces the source, keeps the handle. -/
def ZipfIterator.with_rng (it : ZipfIterator) (r : StdRng) : ZipfIterator :=
  { zipf := it.zipf, rng := r }

/-- From `ZipfIterator::with_seed`: `Self::new(zipf).with_rng(StdRng::seed_from_u64(seed))`. -/
def ZipfIterator.with_seed (z : Zipf) (k : ℕ) : ZipfIterator :=
  (ZipfIterator.new z).with_rng (StdRng.seed_from_u64 k)

/-- From `Iterator::next for ZipfIterator`: draws one uniform value from the
owned source (advancing it) and returns `Some(zipf.sample(u))`.  The result
pairs the returned `Option<f64>` with the mutated iterator state. -/
noncomputable def ZipfIterator.next (it : ZipfIterator) :
    Option ℝ × ZipfIterator :=
  let p := it.rng.genF64
  (some (it.zipf.sample p.1), { zipf := it.zipf, rng := p.2 })

/-- Iterator state after `n` calls to `next`. -/
noncomputable def ZipfIterator.stateAfter (it : ZipfIterator) : ℕ → ZipfIterator
  | 0 => it
  | n + 1 => (ZipfIterator.stateAfter it n).next.2

/-- The `n`-th value the iterator yields (0-based). -/
noncomputable def ZipfIterator.stream (it : ZipfIterator) (n : ℕ) : ℝ :=
  ((it.stateAfter n).next.1).getD 0

/-- The list of the first `n` values yielded, following `Iterator::take`:
stops early if `next` ever returns `None`. -/
noncomputable def ZipfIterator.takeList : ZipfIterator → ℕ → List ℝ
  | _, 0 => []
  | it, n + 1 =>
    match it.next with
    | (some v, it') => v :: ZipfIterator.takeList it' n
    | (none, _) => []

/-- From `Zipf::iter`: `ZipfIterator::new(*self)`. -/
def Zipf.iter (z : Zipf) : ZipfIterator := ZipfIterator.new z

/-- The Rust `as usize` cast applied to an `f64`: truncation toward zero,
saturating below at `0` and above at `usize::MAX`. -/
noncomputable def rustCastUsize (x : ℝ) : ℕ :=
  min (Int.toNat ⌊x⌋) (2 ^ 64 - 1)

/-- From `Zipf::indices_access(rng, s)`: builds the handle over
`rng.start as f64 .. rng.end as f64` (propagating its error with `?`) and
yields `zipf.iter().map(|x| x as usize)`, modelled as the stream of casts. -/
noncomputable def Zipf.indices_access (start end_ : ℕ) (s : ℝ) :
    Except ZipfError (ℕ → ℕ) :=
  match Zipf.new (start : ℝ) (end_ : ℝ) s with
  | Except.error e => Except.error e
  | Except.ok z => Except.ok (fun n => rustCastUsize (z.iter.stream n))

/-- The per-element mapping step of `array_access`:
`|x| arr[x as usize - offset]`.  `none` models the two panicking branches:
`usize` subtraction underflow when the cast value is below `offset`, and
out-of-bounds slice indexing when `x as usize - offset ≥ arr.len()`. -/
noncomputable def arrayStep {T : Type} (offset : ℕ) (arr : List T) (x : ℝ) :
    Option T :=
  if offset ≤ rustCastUsize x then
    if h2 : rustCastUsize x - offset < arr.length then
      some (arr.get ⟨rustCastUsize x - offset, h2⟩)
    else none
  else none

/-- From `Zipf::array_access(offset, arr, s)`: rejects an empty array first,
then builds the handle over `offset as f64 .. offset + arr.len()` and yields
`zipf.iter().map(|x| arr[x as usize - offset])`. -/
noncomputable def Zipf.array_access {T : Type} (offset : ℕ) (arr : List T)
    (s : ℝ) : Except ZipfError (ℕ → Option T) :=
  if arr.isEmpty then Except.error ZipfError.EmptyArray
  else
    let a : ℝ := (offset : ℕ)
    let b : ℝ := a + (arr.length : ℕ)
    match Zipf.new a b s with
    | Except.error e => Except.error e
    | Except.ok z => Except.ok (fun n => arrayStep offset arr (z.iter.stream n))

/-!
A second, exact model of only the guard clauses of `Zipf::new`, over a type
that keeps the IEEE comparison semantics of `f64` including NaN: any `<=`
comparison involving NaN is false.  Finite values are carried as rationals,
which is enough for the comparisons the guards perform.
-/

/-- An `f64` that is either NaN or a finite value (modelled as a rational). -/
inductive F64 where
  | nan
  | num (x : ℚ)
deriving DecidableEq, Repr

/-- IEEE `<=` on `f64`: false whenever either operand is NaN. -/
def F64.fle : F64 → F64 → Bool
  | F64.num x, F64.num y => decide (x ≤ y)
  | _, _ => false

/-- The `ZipfError` enum with the offending inputs carried as `F64` values. -/
inductive ZipfErrorF where
  | InvalidPowerParameter (s : F64)
  | InvalidRangeStart (start : F64)
  | InvalidRangeEnd (start end_ : F64)
  | EmptyArray
deriving DecidableEq, Repr

/-- The three ordered guard clauses of `Zipf::new` (src/zipf/zipf.rs,
`if s <= 0.0 … if rng.start <= 0.0 … if rng.end <= rng.start`), evaluated
with IEEE comparison semantics; `ok` means the constructor proceeds to
build and return the handle. -/
def zipfNewChecksF (start end_ s : F64) : Except ZipfErrorF Unit :=
  if F64.fle s (F64.num 0) then Except.error (ZipfErrorF.InvalidPowerParameter s)
  else if F64.fle start (F64.num 0) then Except.error (ZipfErrorF.InvalidRangeStart start)
  else if F64.fle end_ start then Except.error (ZipfErrorF.InvalidRangeEnd start end_)
  else Except.ok ()


/-! ### Helper lemmas -/

lemma real_lit_one : (1.0 : ℝ) = 1 := by norm_num

lemma real_lit_zero : (0.0 : ℝ) = 0 := by norm_num

lemma zipf_new_ok (a b s : ℝ) (ha : 0 < a) (hab : a < b) (hs : 0 < s) :
    Zipf.new a b s =
      Except.ok
        { start := a, end_ := b, s := s,
          implementation := ZipfImpl.new_unchecked a b s } := by
  unfold Zipf.new
  rw [if_neg (by rw [real_lit_zero]; linarith), if_neg (by rw [real_lit_zero]; linarith),
    if_neg (by linarith)]

lemma zipf_new_ok_elim {a b s : ℝ} {z : Zipf} (h : Zipf.new a b s = Except.ok z) :
    0 < s ∧ 0 < a ∧ a < b ∧
      z = { start := a, end_ := b, s := s,
            implementation := ZipfImpl.new_unchecked a b s } := by
  unfold Zipf.new at h
  rw [real_lit_zero] at h
  split_ifs at h with h1 h2 h3
  push_neg at h1 h2 h3
  obtain rfl : z = _ := (Except.ok.inj h).symm
  exact ⟨h1, h2, h3, rfl⟩

/-- A concrete valid handle, `Zipf::new(1.0..2.0, 1.0)` (the s = 1 regime). -/
noncomputable def zipfOneHandle : Zipf :=
  { start := 1, end_ := 2, s := 1, implementation := ZipfImpl.new_unchecked 1 2 1 }

lemma zipfOneHandle_new : Zipf.new 1 2 1 = Except.ok zipfOneHandle :=
  zipf_new_ok 1 2 1 one_pos one_lt_two one_pos

/-- A concrete valid handle, `Zipf::new(1.0..2.0, 2.0)` (the s ≠ 1 regime). -/
noncomputable def zipfTwoHandle : Zipf :=
  { start := 1, end_ := 2, s := 2, implementation := ZipfImpl.new_unchecked 1 2 2 }

lemma zipfTwoHandle_new : Zipf.new 1 2 2 = Except.ok zipfTwoHandle :=
  zipf_new_ok 1 2 2 one_pos one_lt_two two_pos

/-! ### Claims -/

/-- C1: for every handle built by `Zipf::new(a..b, s)` and every input `u`,
`sample(u)` is the closed-form inverse CDF of the regime selected at
construction: `exp(ln a + u * ln(b/a))` when `s = 1` (with the two
logarithms precomputed at construction), and
`(u * (b^q - a^q) + a^q) ^ (1/q)` with `q = 1 - s` when `s ≠ 1`, the linear
step being a single fused multiply-add. -/
theorem zipf_sample_closed_form (a b s : ℝ) (z : Zipf) (u : ℝ)
    (h : Zipf.new a b s = Except.ok z) :
    (s = 1 → z.sample u = Real.exp (Real.log a + u * Real.log (b / a))) ∧
    (s ≠ 1 → z.sample u =
      mulAdd u (b ^ (1 - s) - a ^ (1 - s)) (a ^ (1 - s)) ^ (1 / (1 - s)) ∧
      mulAdd u (b ^ (1 - s) - a ^ (1 - s)) (a ^ (1 - s)) =
        u * (b ^ (1 - s) - a ^ (1 - s)) + a ^ (1 - s)) := by
  obtain ⟨hs, ha, hab, rfl⟩ := zipf_new_ok_elim h
  constructor
  · intro hs1
    simp [Zipf.sample, ZipfImpl.sample, ZipfImpl.new_unchecked, real_lit_one, hs1,
      ZipfOne.new_unchecked, ZipfOne.sample]
  · intro hs1
    simp [Zipf.sample, ZipfImpl.sample, ZipfImpl.new_unchecked, real_lit_one, hs1,
      ZipfNonOne.new_unchecked, ZipfNonOne.sample, mulAdd]

/-- Witness for C1 at `a = 1`, `b = 2`, `s = 1`, `u = 1/2`. -/
theorem zipf_sample_closed_form_witness :
    zipfOneHandle.sample (1 / 2) =
      Real.exp (Real.log 1 + 1 / 2 * Real.log (2 / 1)) :=
  (zipf_sample_closed_form 1 2 1 zipfOneHandle (1 / 2) zipfOneHandle_new).1 rfl

/-- C2: the three validation checks of `Zipf::new` are applied in order —
`s ≤ 0` fails with `InvalidPowerParameter(s)`; otherwise `start ≤ 0` fails
with `InvalidRangeStart(start)`; otherwise `end ≤ start` fails with
`InvalidRangeEnd{start, end}`; and every triple with `start > 0`,
`end > start`, `s > 0` constructs a handle. -/
theorem zipf_new_validation (start end_ s : ℝ) :
    (s ≤ 0 → Zipf.new start end_ s =
      Except.error (ZipfError.InvalidPowerParameter s)) ∧
    (0 < s → start ≤ 0 → Zipf.new start end_ s =
      Except.error (ZipfError.InvalidRangeStart start)) ∧
    (0 < s → 0 < start → end_ ≤ start → Zipf.new start end_ s =
      Except.error (ZipfError.InvalidRangeEnd start end_)) ∧
    (0 < start → start < end_ → 0 < s →
      ∃ z, Zipf.new start end_ s = Except.ok z) := by
  refine ⟨fun h1 => ?_, fun h1 h2 => ?_, fun h1 h2 h3 => ?_, fun h1 h2 h3 => ?_⟩
  · unfold Zipf.new
    rw [if_pos (by rw [real_lit_zero]; linarith)]
  · unfold Zipf.new
    rw [if_neg (by rw [real_lit_zero]; linarith), if_pos (by rw [real_lit_zero]; linarith)]
  · unfold Zipf.new
    rw [if_neg (by rw [real_lit_zero]; linarith), if_neg (by rw [real_lit_zero]; linarith),
      if_pos (by linarith)]
  · exact ⟨_, zipf_new_ok start end_ s h1 h2 h3⟩

/-- Witness for C2: each branch exercised at a concrete triple. -/
theorem zipf_new_validation_witness :
    Zipf.new 1 2 (-1) = Except.error (ZipfError.InvalidPowerParameter (-1)) ∧
    Zipf.new (-1) 2 1 = Except.error (ZipfError.InvalidRangeStart (-1)) ∧
    Zipf.new 2 1 1 = Except.error (ZipfError.InvalidRangeEnd 2 1) ∧
    (∃ z, Zipf.new 1 2 1 = Except.ok z) :=
  ⟨(zipf_new_validation 1 2 (-1)).1 (by norm_num),
   (zipf_new_validation (-1) 2 1).2.1 one_pos (by norm_num),
   (zipf_new_validation 2 1 1).2.2.1 one_pos two_pos one_le_two,
   (zipf_new_validation 1 2 1).2.2.2 one_pos one_lt_two one_pos⟩

/-- C5: construction populates exactly one regime of the tagged union,
chosen by the exact equality test `s == 1.0`: the `s = 1` regime stores
`ln a` and `ln(b/a)`, the other stores `1/(1-s)`, `a^(1-s)` and
`b^(1-s) - a^(1-s)`; the two regimes are distinct constructors, the stored
choice is the one made at construction, and every `sample` call dispatches
on the stored tag alone. -/
theorem zipf_regime_invariant (a b s : ℝ) (z : Zipf)
    (h : Zipf.new a b s = Except.ok z) :
    z.implementation = ZipfImpl.new_unchecked a b s ∧
    (s = 1 → z.implementation = ZipfImpl.One
      { ln_b_div_a := Real.log (b / a), ln_a := Real.log a }) ∧
    (s ≠ 1 → z.implementation = ZipfImpl.NonOne
      { q_inv := 1 / (1 - s), a_pow_q := a ^ (1 - s),
        b_pow_q_sub_a_pow_q := b ^ (1 - s) - a ^ (1 - s) }) ∧
    (∀ zo zn, ZipfImpl.One zo ≠ ZipfImpl.NonOne zn) ∧
    (∀ u, z.sample u = z.implementation.sample u) ∧
    (∀ zo u, ZipfImpl.sample (ZipfImpl.One zo) u = zo.sample u) ∧
    (∀ zn u, ZipfImpl.sample (ZipfImpl.NonOne zn) u = zn.sample u) := by
  obtain ⟨hs, ha, hab, rfl⟩ := zipf_new_ok_elim h
  refine ⟨rfl, fun hs1 => ?_, fun hs1 => ?_, fun zo zn => by simp,
    fun u => rfl, fun zo u => rfl, fun zn u => rfl⟩
  · simp [ZipfImpl.new_unchecked, real_lit_one, hs1, ZipfOne.new_unchecked]
  · simp [ZipfImpl.new_unchecked, real_lit_one, hs1, ZipfNonOne.new_unchecked]

/-- Witness for C5 at `a = 1`, `b = 2`, `s = 2`. -/
theorem zipf_regime_invariant_witness :
    zipfTwoHandle.implementation = ZipfImpl.new_unchecked 1 2 2 ∧
    zipfTwoHandle.implementation = ZipfImpl.NonOne
      { q_inv := 1 / (1 - 2), a_pow_q := (1 : ℝ) ^ ((1 : ℝ) - 2),
        b_pow_q_sub_a_pow_q := (2 : ℝ) ^ ((1 : ℝ) - 2) - (1 : ℝ) ^ ((1 : ℝ) - 2) } :=
  ⟨(zipf_regime_invariant 1 2 2 zipfTwoHandle zipfTwoHandle_new).1,
   (zipf_regime_invariant 1 2 2 zipfTwoHandle zipfTwoHandle_new).2.2.1 (by norm_num)⟩


/-- C4: `sample_batch` writes `sample(u_values[i])` at each position `i`
(element-wise, in input order, with no cross-element dependency), so equal
lengths give exactly the element-wise `sample` results, and a length
mismatch is the fatal assertion (the only panic path of the batch API, modelled
as `none`). -/
theorem zipf_sample_batch_elementwise (z : Zipf) (us out : List ℝ) :
    (us.length = out.length →
      z.sample_batch us out = some (us.map z.sample) ∧
      ∀ i : ℕ, (us.map z.sample)[i]? = Option.map z.sample us[i]?) ∧
    (us.length ≠ out.length → z.sample_batch us out = none) := by
  constructor
  · intro hlen
    refine ⟨?_, fun i => ?_⟩
    · unfold Zipf.sample_batch
      rw [if_pos hlen]
    · simp
  · intro hlen
    unfold Zipf.sample_batch
    rw [if_neg hlen]

/-- Witness for C4: equal-length and mismatched-length calls on a concrete
handle. -/
theorem zipf_sample_batch_elementwise_witness :
    zipfOneHandle.sample_batch [(1 : ℝ) / 2] [0] =
      some (([(1 : ℝ) / 2]).map zipfOneHandle.sample) ∧
    zipfOneHandle.sample_batch [(1 : ℝ) / 2] [] = none :=
  ⟨((zipf_sample_batch_elementwise zipfOneHandle [(1 : ℝ) / 2] [0]).1 rfl).1,
   (zipf_sample_batch_elementwise zipfOneHandle [(1 : ℝ) / 2] []).2 (by simp)⟩

/-- C9: the validation of `Zipf::new` does not reject NaN: every `<=` check is
false when either operand is NaN, so `Zipf::new(NaN..1.0, 1.0)`,
`Zipf::new(1.0..NaN, 1.0)` and `Zipf::new(1.0..2.0, NaN)` all pass the
guards and return `Ok`. -/
theorem zipf_new_nan_not_rejected :
    (∀ y : F64, F64.fle F64.nan y = false ∧ F64.fle y F64.nan = false) ∧
    zipfNewChecksF F64.nan (F64.num 1) (F64.num 1) = Except.ok () ∧
    zipfNewChecksF (F64.num 1) F64.nan (F64.num 1) = Except.ok () ∧
    zipfNewChecksF (F64.num 1) (F64.num 2) F64.nan = Except.ok () := by
  refine ⟨fun y => ⟨?_, ?_⟩, rfl, rfl, rfl⟩
  · cases y <;> rfl
  · cases y <;> rfl

/-- C6: two iterators built from the same handle with the same seed yield
bit-identical first-`n` sequences; `iter()` is `with_seed` at the fixed
default seed 666; and each `next()` draws exactly one uniform value from the
owned source (advancing it once) and returns `Some(sample(u))`, never
`None`. -/
theorem zipf_iterator_deterministic (z : Zipf) (k n : ℕ)
    (it1 it2 : ZipfIterator)
    (h1 : it1 = ZipfIterator.with_seed z k)
    (h2 : it2 = ZipfIterator.with_seed z k) :
    it1.takeList n = it2.takeList n ∧
    Zipf.iter z = ZipfIterator.with_seed z DEFAULT_SEED ∧
    DEFAULT_SEED = 666 ∧
    (∀ it : ZipfIterator,
      it.next = (some (it.zipf.sample it.rng.genF64.1),
        { zipf := it.zipf, rng := it.rng.genF64.2 })) := by
  subst h1
  subst h2
  exact ⟨rfl, rfl, rfl, fun it => rfl⟩

/-- Witness for C6 at a concrete handle, seed 42 and three draws. -/
theorem zipf_iterator_deterministic_witness :
    (ZipfIterator.with_seed zipfOneHandle 42).takeList 3 =
      (ZipfIterator.with_seed zipfOneHandle 42).takeList 3 ∧
    Zipf.iter zipfOneHandle = ZipfIterator.with_seed zipfOneHandle DEFAULT_SEED ∧
    DEFAULT_SEED = 666 ∧
    (∀ it : ZipfIterator,
      it.next = (some (it.zipf.sample it.rng.genF64.1),
        { zipf := it.zipf, rng := it.rng.genF64.2 })) :=
  zipf_iterator_deterministic zipfOneHandle 42 3 _ _ rfl rfl


/-- C7: `indices_access(rangeStart..rangeEnd, s)` builds the handle over
`(rangeStart as f64)..(rangeEnd as f64)`, returns exactly the validation
error of that handle when construction fails (before any value is produced),
and on success yields each sampled value converted by the `as usize` cast,
which is truncation toward zero on every value below `usize::MAX`. -/
theorem zipf_indices_access_spec (start end_ : ℕ) (s : ℝ) :
    (∀ e, Zipf.new (start : ℝ) (end_ : ℝ) s = Except.error e →
      Zipf.indices_access start end_ s = Except.error e) ∧
    (∀ z, Zipf.new (start : ℝ) (end_ : ℝ) s = Except.ok z →
      Zipf.indices_access start end_ s =
        Except.ok (fun n => rustCastUsize (z.iter.stream n))) ∧
    (∀ x : ℝ, ⌊x⌋ ≤ 2 ^ 64 - 1 → rustCastUsize x = Int.toNat ⌊x⌋) := by
  refine ⟨fun e he => ?_, fun z hz => ?_, fun x hx => ?_⟩
  · unfold Zipf.indices_access
    rw [he]
  · unfold Zipf.indices_access
    rw [hz]
  · unfold rustCastUsize
    refine min_eq_left (Int.toNat_le.mpr ?_)
    calc ⌊x⌋ ≤ 2 ^ 64 - 1 := hx
    _ = ((2 ^ 64 - 1 : ℕ) : ℤ) := by norm_num

/-- Witness for C7: a failing and a succeeding concrete range, and the cast
at a concrete value. -/
theorem zipf_indices_access_spec_witness :
    Zipf.indices_access 1 2 (-1) =
      Except.error (ZipfError.InvalidPowerParameter (-1)) ∧
    Zipf.indices_access 1 2 1 =
      Except.ok (fun n => rustCastUsize (zipfOneHandle.iter.stream n)) ∧
    rustCastUsize 1 = Int.toNat ⌊(1 : ℝ)⌋ :=
  ⟨(zipf_indices_access_spec 1 2 (-1)).1 _
      (by push_cast; exact (zipf_new_validation 1 2 (-1)).1 (by norm_num)),
   (zipf_indices_access_spec 1 2 1).2.1 zipfOneHandle
      (by push_cast; exact zipfOneHandle_new),
   (zipf_indices_access_spec 1 2 1).2.2 1 (by rw [Int.floor_one]; norm_num)⟩

/-- C8: `array_access(offset, arr, s)` on an empty collection fails with
`EmptyArray` for every `offset` and `s` — the emptiness check runs before
any handle is built, so no range/power error can preempt it; on a non-empty
collection it builds the handle over `offset..offset + arr.len()` and
propagates the validation errors of that handle. -/
theorem zipf_array_access_spec (T : Type) (offset : ℕ) (arr : List T) (s : ℝ) :
    (arr = [] → Zipf.array_access offset arr s =
      Except.error ZipfError.EmptyArray) ∧
    (arr ≠ [] → ∀ e,
      Zipf.new (offset : ℝ) ((offset : ℝ) + (arr.length : ℝ)) s =
        Except.error e →
      Zipf.array_access offset arr s = Except.error e) ∧
    (arr ≠ [] → ∀ z,
      Zipf.new (offset : ℝ) ((offset : ℝ) + (arr.length : ℝ)) s =
        Except.ok z →
      Zipf.array_access offset arr s =
        Except.ok (fun n => arrayStep offset arr (z.iter.stream n))) := by
  refine ⟨fun h => ?_, fun h e he => ?_, fun h z hz => ?_⟩
  · subst h
    rfl
  · unfold Zipf.array_access
    rw [if_neg (by simpa using h)]
    dsimp only
    rw [he]
  · unfold Zipf.array_access
    rw [if_neg (by simpa using h)]
    dsimp only
    rw [hz]

/-- Witness for C8: empty collection with invalid power (emptiness wins),
error propagation at `offset = 0`, and a successful construction. -/
theorem zipf_array_access_spec_witness :
    Zipf.array_access 5 ([] : List ℕ) (-1) =
      Except.error ZipfError.EmptyArray ∧
    Zipf.array_access 0 [7] 1 = Except.error (ZipfError.InvalidRangeStart 0) ∧
    Zipf.array_access 1 [7] 1 =
      Except.ok (fun n => arrayStep 1 [7] (zipfOneHandle.iter.stream n)) :=
  ⟨(zipf_array_access_spec ℕ 5 [] (-1)).1 rfl,
   by
    have := (zipf_array_access_spec ℕ 0 [7] 1).2.1 (by simp)
      (ZipfError.InvalidRangeStart 0)
    refine this ?_
    have h0 := (zipf_new_validation 0 1 1).2.1 one_pos le_rfl
    simpa using h0,
   by
    have := (zipf_array_access_spec ℕ 1 [7] 1).2.2 (by simp) zipfOneHandle
    refine this ?_
    have h1 := zipfOneHandle_new
    have hcast : ((1 : ℕ) : ℝ) + (([7] : List ℕ).length : ℝ) = 2 := by
      norm_num
    rw [hcast]
    norm_num
    exact h1⟩

/-- C10: the per-element lookup of `array_access` maps a drawn value `x` to
`arr[x as usize - offset]` and yields an element exactly when the cast
value lies in `[offset, offset + arr.len())`; a value casting below
`offset` or to exactly `offset + arr.len()` hits a panicking branch
(`none`), so the step is not total over all sample outputs. -/
theorem zipf_array_step_window (T : Type) (offset : ℕ) (arr : List T) (x : ℝ) :
    ((arrayStep offset arr x).isSome = true ↔
      offset ≤ rustCastUsize x ∧ rustCastUsize x < offset + arr.length) ∧
    (rustCastUsize x < offset → arrayStep offset arr x = none) ∧
    (rustCastUsize x = offset + arr.length → arrayStep offset arr x = none) ∧
    (∀ h2 : rustCastUsize x - offset < arr.length,
      offset ≤ rustCastUsize x →
      arrayStep offset arr x =
        some (arr.get ⟨rustCastUsize x - offset, h2⟩)) ∧
    (offset + arr.length < 2 ^ 64 → ∃ y : ℝ, arrayStep offset arr y = none) := by
  refine ⟨?_, fun hlt => ?_, fun heq => ?_, fun h2 hle => ?_, fun hsz => ?_⟩
  · unfold arrayStep
    split_ifs with hle hlen
    · simp only [Option.isSome_some, true_iff]
      omega
    · simp only [Option.isSome_none, Bool.false_eq_true, false_iff]
      omega
    · simp only [Option.isSome_none, Bool.false_eq_true, false_iff]
      omega
  · unfold arrayStep
    rw [if_neg (by omega)]
  · unfold arrayStep
    rw [if_pos (by omega)]
    rw [dif_neg (by omega)]
  · unfold arrayStep
    rw [if_pos hle]
    rw [dif_pos h2]
  · refine ⟨((offset + arr.length : ℕ) : ℝ), ?_⟩
    have hcast : rustCastUsize ((offset + arr.length : ℕ) : ℝ) =
        offset + arr.length := by
      unfold rustCastUsize
      rw [Int.floor_natCast]
      simp only [Int.toNat_natCast]
      omega
    unfold arrayStep
    rw [hcast, if_pos (by omega), dif_neg (by omega)]

/-- Witness for C10 at `offset = 1`, `arr = [7]`: cast value 0 (below the
window), 1 (inside), 2 (at the upper edge), and the non-totality instance. -/
theorem zipf_array_step_window_witness :
    arrayStep 1 [7] (0 : ℝ) = none ∧
    arrayStep 1 [7] (1 : ℝ) = some 7 ∧
    arrayStep 1 [7] (2 : ℝ) = none ∧
    (∃ y : ℝ, arrayStep 1 ([7] : List ℕ) y = none) := by
  have hc0 : rustCastUsize (0 : ℝ) = 0 := by
    unfold rustCastUsize
    rw [Int.floor_zero]
    norm_num
  have hc1 : rustCastUsize (1 : ℝ) = 1 := by
    unfold rustCastUsize
    rw [Int.floor_one]
    norm_num
  have hc2 : rustCastUsize (2 : ℝ) = 2 := by
    unfold rustCastUsize
    rw [show ((2 : ℝ)) = ((2 : ℕ) : ℝ) by norm_num, Int.floor_natCast]
    simp
  refine ⟨(zipf_array_step_window ℕ 1 [7] 0).2.1 (by rw [hc0]; norm_num), ?_,
    (zipf_array_step_window ℕ 1 [7] 2).2.2.1 (by rw [hc2]; rfl),
    (zipf_array_step_window ℕ 1 [7] 0).2.2.2.2 (by norm_num)⟩
  have := (zipf_array_step_window ℕ 1 [7] 1).2.2.2.1
    (by rw [hc1]; norm_num) (by rw [hc1])
  simpa [hc1] using this


lemma zipfOne_sample_mono (a b : ℝ) (ha : 0 < a) (hab : a < b) {u1 u2 : ℝ}
    (h12 : u1 ≤ u2) :
    (ZipfOne.new_unchecked a b).sample u1 ≤ (ZipfOne.new_unchecked a b).sample u2 := by
  unfold ZipfOne.new_unchecked ZipfOne.sample
  rw [Real.exp_le_exp]
  have hL : 0 ≤ Real.log (b / a) := (Real.log_pos ((one_lt_div ha).2 hab)).le
  nlinarith [mul_le_mul_of_nonneg_right h12 hL]

lemma zipfNonOne_sample_mono (a b s : ℝ) (ha : 0 < a) (hab : a < b)
    (hs1 : s ≠ 1) {u1 u2 : ℝ} (hu0 : 0 ≤ u1) (h12 : u1 ≤ u2) (hu2 : u2 < 1) :
    (ZipfNonOne.new_unchecked a b s).sample u1 ≤
      (ZipfNonOne.new_unchecked a b s).sample u2 := by
  unfold ZipfNonOne.new_unchecked ZipfNonOne.sample mulAdd
  dsimp only
  simp only [real_lit_one]
  rcases lt_or_gt_of_ne (sub_ne_zero.2 (Ne.symm hs1)) with hq | hq
  · -- q = 1 - s < 0, the s > 1 case: both the linear step and the outer
    -- power are antitone, so their composition is monotone.
    have hbpow : 0 < b ^ (1 - s) := Real.rpow_pos_of_pos (ha.trans hab) _
    have hc : b ^ (1 - s) ≤ a ^ (1 - s) :=
      Real.rpow_le_rpow_of_nonpos ha hab.le hq.le
    have hanti : u2 * (b ^ (1 - s) - a ^ (1 - s)) + a ^ (1 - s) ≤
        u1 * (b ^ (1 - s) - a ^ (1 - s)) + a ^ (1 - s) := by
      nlinarith [mul_le_mul_of_nonpos_right h12 (sub_nonpos.2 hc)]
    have hpos : 0 < u2 * (b ^ (1 - s) - a ^ (1 - s)) + a ^ (1 - s) := by
      nlinarith [mul_nonneg (sub_pos.2 hu2).le (sub_nonneg.2 hc)]
    exact Real.rpow_le_rpow_of_nonpos hpos hanti (one_div_nonpos.2 hq.le)
  · -- q = 1 - s > 0, the s < 1 case: both steps are monotone.
    have hapow : 0 < a ^ (1 - s) := Real.rpow_pos_of_pos ha _
    have hc : a ^ (1 - s) ≤ b ^ (1 - s) :=
      Real.rpow_le_rpow ha.le hab.le hq.le
    have hmono : u1 * (b ^ (1 - s) - a ^ (1 - s)) + a ^ (1 - s) ≤
        u2 * (b ^ (1 - s) - a ^ (1 - s)) + a ^ (1 - s) := by
      nlinarith [mul_le_mul_of_nonneg_right h12 (sub_nonneg.2 hc)]
    have hnn : 0 ≤ u1 * (b ^ (1 - s) - a ^ (1 - s)) + a ^ (1 - s) := by
      nlinarith [mul_nonneg hu0 (sub_nonneg.2 hc)]
    exact Real.rpow_le_rpow hnn hmono (by positivity)

/-- C3: for every handle built by `Zipf::new(a..b, s)` with valid
parameters, `sample` is monotone non-decreasing on `[0, 1)`: whenever
`0 ≤ u1 ≤ u2 < 1`, `sample(u1) ≤ sample(u2)`, in both the `s = 1` and the
`s ≠ 1` regime. -/
theorem zipf_sample_monotone (a b s : ℝ) (z : Zipf) (u1 u2 : ℝ)
    (h : Zipf.new a b s = Except.ok z)
    (hu0 : 0 ≤ u1) (h12 : u1 ≤ u2) (hu2 : u2 < 1) :
    z.sample u1 ≤ z.sample u2 := by
  obtain ⟨hs, ha, hab, rfl⟩ := zipf_new_ok_elim h
  unfold Zipf.sample ZipfImpl.new_unchecked
  by_cases hs1 : s = 1.0
  · rw [if_pos hs1]
    exact zipfOne_sample_mono a b ha hab h12
  · rw [if_neg hs1]
    exact zipfNonOne_sample_mono a b s ha hab
      (by rwa [real_lit_one] at hs1) hu0 h12 hu2

/-- Witness for C3 at `a = 1`, `b = 2`, `s = 2`, `u1 = 0`, `u2 = 1/2`. -/
theorem zipf_sample_monotone_witness :
    zipfTwoHandle.sample 0 ≤ zipfTwoHandle.sample (1 / 2) :=
  zipf_sample_monotone 1 2 2 zipfTwoHandle 0 (1 / 2) zipfTwoHandle_new
    le_rfl (by norm_num) (by norm_num)

end LoadZipf
